import Mathlib

/-!
Verification development for the otrust-cli repository (a command-line client
and library wrapper for the OTRUST service).  The definitions below are a
shallow embedding of the client's credential store and signed-request builder:

* JSON serialization is modelled after JavaScript JSON.stringify: object
  fields are emitted in insertion order, string values are escaped per the
  ECMA-262 QuoteJSONString algorithm, and properties whose value is the
  JavaScript undefined are omitted from the output.
* The persisted config file is modelled as an optional on-disk value that is
  either well-formed JSON or unreadable bytes.
* The platform JSON codec pair JSON.parse / JSON.stringify is modelled as the
  identity on JSON values (round-tripping through bytes is the platform's
  guarantee, not this repository's code).
* RSA key generation and SHA256 signing are modelled as oracles: key material
  produced by the generator is passed in as an argument, and the signing
  primitive is a function parameter.  The code paths verified here do not
  depend on the cryptographic values themselves.
-/

namespace Otrust

/-! ## Decimal digits -/

/-- Decimal digit to character, as used when printing JavaScript integers. -/
def digitChar (n : Nat) : Char :=
  match n with
  | 0 => '0' | 1 => '1' | 2 => '2' | 3 => '3' | 4 => '4'
  | 5 => '5' | 6 => '6' | 7 => '7' | 8 => '8' | 9 => '9'
  | _ => '0'

/-- Numeric value of a decimal digit character (0 for non-digits). -/
def digitVal (c : Char) : Nat :=
  match c with
  | '0' => 0 | '1' => 1 | '2' => 2 | '3' => 3 | '4' => 4
  | '5' => 5 | '6' => 6 | '7' => 7 | '8' => 8 | '9' => 9
  | _ => 0

/-- Fuel-driven digit expansion (the fuel makes the definition reduce inside
the kernel; natChars always supplies enough). -/
def natCharsAux : Nat → Nat → List Char
  | 0, _ => []
  | fuel + 1, n =>
    if n < 10 then [digitChar n]
    else natCharsAux fuel (n / 10) ++ [digitChar (n % 10)]

/-- Decimal representation of a natural number, most significant digit first.
This is how JSON.stringify prints a non-negative integral JavaScript number. -/
def natChars (n : Nat) : List Char := natCharsAux (n + 1) n

theorem natCharsAux_stable : ∀ (n f1 f2 : Nat), n < f1 → n < f2 →
    natCharsAux f1 n = natCharsAux f2 n := by
  intro n
  induction n using Nat.strong_induction_on with
  | _ n ih =>
    intro f1 f2 h1 h2
    match f1, f2 with
    | fa + 1, fb + 1 =>
      simp only [natCharsAux]
      by_cases hn : n < 10
      · simp [hn]
      · simp only [hn, if_false]
        rw [ih (n / 10) (Nat.div_lt_self (by omega) (by omega)) fa fb (by omega) (by omega)]

theorem natChars_unfold (n : Nat) :
    natChars n = if n < 10 then [digitChar n] else natChars (n / 10) ++ [digitChar (n % 10)] := by
  show natCharsAux (n + 1) n = _
  simp only [natCharsAux]
  by_cases hn : n < 10
  · simp [hn]
  · simp only [hn, if_false]
    rw [natCharsAux_stable (n / 10) n (n / 10 + 1)
      (by have := Nat.div_lt_self (show 0 < n by omega) (show 1 < 10 by omega); omega)
      (by omega)]
    rfl

/-- Decimal representation of a natural number as a string. -/
def natStr (n : Nat) : String := ⟨natChars n⟩

/-- Value of a digit list read as a decimal number. -/
def digitsVal (l : List Char) : Nat := l.foldl (fun a c => 10 * a + digitVal c) 0

theorem digitVal_digitChar {n : Nat} (h : n < 10) : digitVal (digitChar n) = n := by
  interval_cases n <;> rfl

theorem isDigit_digitChar {n : Nat} (h : n < 10) : (digitChar n).isDigit = true := by
  interval_cases n <;> rfl

theorem digitsVal_append_singleton (l : List Char) (c : Char) :
    digitsVal (l ++ [c]) = 10 * digitsVal l + digitVal c := by
  simp [digitsVal, List.foldl_append]

theorem digitsVal_natChars (n : Nat) : digitsVal (natChars n) = n := by
  induction n using Nat.strong_induction_on with
  | _ n ih =>
    rw [natChars_unfold]
    split
    · next h => simp [digitsVal, digitVal_digitChar h]
    · next h =>
      rw [digitsVal_append_singleton, ih (n / 10) (Nat.div_lt_self (by omega) (by omega)),
        digitVal_digitChar (Nat.mod_lt _ (by omega))]
      omega

theorem natChars_all_digit (n : Nat) : ∀ c ∈ natChars n, c.isDigit = true := by
  induction n using Nat.strong_induction_on with
  | _ n ih =>
    rw [natChars_unfold]
    split
    · next h => simpa using isDigit_digitChar h
    · next h =>
      intro c hc
      rcases List.mem_append.mp hc with h1 | h1
      · exact ih (n / 10) (Nat.div_lt_self (by omega) (by omega)) c h1
      · simp only [List.mem_singleton] at h1
        subst h1
        exact isDigit_digitChar (Nat.mod_lt _ (by omega))

theorem natChars_injective {a b : Nat} (h : natChars a = natChars b) : a = b := by
  have := digitsVal_natChars a
  rw [h, digitsVal_natChars] at this
  omega

/-! ## Hexadecimal digits (for JSON control-character escapes) -/

/-- Lower-case hexadecimal digit, as produced by JSON.stringify unicode escapes. -/
def hexDigitChar (n : Nat) : Char :=
  match n with
  | 0 => '0' | 1 => '1' | 2 => '2' | 3 => '3' | 4 => '4'
  | 5 => '5' | 6 => '6' | 7 => '7' | 8 => '8' | 9 => '9'
  | 10 => 'a' | 11 => 'b' | 12 => 'c' | 13 => 'd' | 14 => 'e' | 15 => 'f'
  | _ => '0'

/-- Value of a hexadecimal digit character (0 for others). -/
def hexVal (c : Char) : Nat :=
  match c with
  | '0' => 0 | '1' => 1 | '2' => 2 | '3' => 3 | '4' => 4
  | '5' => 5 | '6' => 6 | '7' => 7 | '8' => 8 | '9' => 9
  | 'a' => 10 | 'b' => 11 | 'c' => 12 | 'd' => 13 | 'e' => 14 | 'f' => 15
  | _ => 0

theorem hexVal_hexDigitChar {n : Nat} (h : n < 16) : hexVal (hexDigitChar n) = n := by
  interval_cases n <;> rfl

/-! ## JSON string escaping (ECMA-262 QuoteJSONString, as used by JSON.stringify) -/

/-- Escape of a single character inside a JSON string literal. -/
def escChar (c : Char) : List Char :=
  if c = '"' then ['\\', '"']
  else if c = '\\' then ['\\', '\\']
  else if c = '\n' then ['\\', 'n']
  else if c = '\r' then ['\\', 'r']
  else if c = '\t' then ['\\', 't']
  else if c = '\x08' then ['\\', 'b']
  else if c = '\x0c' then ['\\', 'f']
  else if c.toNat < 32 then
    ['\\', 'u', '0', '0', hexDigitChar (c.toNat / 16), hexDigitChar (c.toNat % 16)]
  else [c]

/-- Body of the JSON escape of a string (without the surrounding quotes). -/
def escBody (s : String) : List Char := s.data.flatMap escChar

/-- Full JSON serialization of a string value, quotes included. -/
def encB (s : String) : List Char := '"' :: escBody s ++ ['"']

/-- Full JSON serialization of a string value, as a string. -/
def encodeStr (s : String) : String := ⟨encB s⟩

/-- A string none of whose characters require JSON escaping. -/
def escFree (s : String) : Prop := ∀ c ∈ s.data, escChar c = [c]

instance (s : String) : Decidable (escFree s) := by
  unfold escFree; infer_instance

/-! ### Decoder for the escape code, used to prove serialized strings are
uniquely decodable.  parseEsc reads one escape sequence (after a backslash),
parseStrBody reads a full string body up to the closing quote. -/

/-- Decode one JSON escape sequence (the part after the backslash). -/
def parseEsc : List Char → Option (Char × List Char)
  | [] => none
  | e :: l =>
    if e = '"' then some ('"', l)
    else if e = '\\' then some ('\\', l)
    else if e = 'n' then some ('\n', l)
    else if e = 'r' then some ('\r', l)
    else if e = 't' then some ('\t', l)
    else if e = 'b' then some ('\x08', l)
    else if e = 'f' then some ('\x0c', l)
    else if e = 'u' then
      match l with
      | d1 :: d2 :: d3 :: d4 :: l4 =>
        some (Char.ofNat (((hexVal d1 * 16 + hexVal d2) * 16 + hexVal d3) * 16 + hexVal d4), l4)
      | _ => none
    else none

theorem parseEsc_length {l : List Char} {p : Char × List Char} (h : parseEsc l = some p) :
    p.2.length < l.length := by
  match l with
  | [] => simp [parseEsc] at h
  | e :: l =>
    simp only [parseEsc] at h
    split_ifs at h <;> try (cases h; simp)
    · next =>
      match l with
      | d1 :: d2 :: d3 :: d4 :: l4 =>
        simp only [Option.some.injEq] at h
        cases h; simp; omega
      | [] => simp at h
      | [_] => simp at h
      | [_, _] => simp at h
      | [_, _, _] => simp at h

/-- Decode a JSON string body: consume characters up to an unescaped closing
quote, undoing escapes; return the decoded characters and the remaining input. -/
def parseStrBody (l : List Char) : Option (List Char × List Char) :=
  match l with
  | [] => none
  | c :: l1 =>
    if c = '"' then some ([], l1)
    else if c = '\\' then
      match h : parseEsc l1 with
      | some p =>
        match parseStrBody p.2 with
        | some q => some (p.1 :: q.1, q.2)
        | none => none
      | none => none
    else
      match parseStrBody l1 with
      | some q => some (c :: q.1, q.2)
      | none => none
  termination_by l.length
  decreasing_by
  · exact Nat.lt_succ_of_lt (parseEsc_length h)
  · simp

theorem parseStrBody_quote (l : List Char) : parseStrBody ('"' :: l) = some ([], l) := by
  rw [parseStrBody]
  simp

theorem parseStrBody_backslash (l : List Char) :
    parseStrBody ('\\' :: l) =
      match parseEsc l with
      | some p =>
        match parseStrBody p.2 with
        | some q => some (p.1 :: q.1, q.2)
        | none => none
      | none => none := by
  rw [parseStrBody, if_neg (by decide), if_pos rfl]
  split
  · next p hp => rw [hp]
  · next hp => rw [hp]

theorem parseStrBody_other {c : Char} (h1 : ¬c = '"') (h2 : ¬c = '\\') (l : List Char) :
    parseStrBody (c :: l) =
      match parseStrBody l with
      | some q => some (c :: q.1, q.2)
      | none => none := by
  rw [parseStrBody]
  rw [if_neg h1, if_neg h2]

/-- JSON-escaped string bodies are uniquely decodable: decoding the escape of
`cs` followed by a closing quote recovers `cs` and the rest of the input. -/
theorem parseStrBody_roundtrip (cs : List Char) (r : List Char) :
    parseStrBody (cs.flatMap escChar ++ '"' :: r) = some (cs, r) := by
  induction cs with
  | nil => simpa using parseStrBody_quote r
  | cons c cs ih =>
    rw [List.flatMap_cons, List.append_assoc]
    by_cases h1 : c = '"'
    · have hc : escChar c = ['\\', '"'] := by rw [escChar, if_pos h1]
      subst h1
      rw [hc]
      have he : parseEsc ('"' :: (cs.flatMap escChar ++ '"' :: r)) =
          some ('"', cs.flatMap escChar ++ '"' :: r) := rfl
      simp only [List.cons_append, List.nil_append, parseStrBody_backslash, he, ih]
    · by_cases h2 : c = '\\'
      · have hc : escChar c = ['\\', '\\'] := by rw [escChar, if_neg h1, if_pos h2]
        subst h2
        rw [hc]
        have he : parseEsc ('\\' :: (cs.flatMap escChar ++ '"' :: r)) =
            some ('\\', cs.flatMap escChar ++ '"' :: r) := rfl
        simp only [List.cons_append, List.nil_append, parseStrBody_backslash, he, ih]
      · by_cases h3 : c = '\n'
        · have hc : escChar c = ['\\', 'n'] := by
            rw [escChar, if_neg h1, if_neg h2, if_pos h3]
          subst h3
          rw [hc]
          have he : parseEsc ('n' :: (cs.flatMap escChar ++ '"' :: r)) =
              some ('\n', cs.flatMap escChar ++ '"' :: r) := rfl
          simp only [List.cons_append, List.nil_append, parseStrBody_backslash, he, ih]
        · by_cases h4 : c = '\r'
          · have hc : escChar c = ['\\', 'r'] := by
              rw [escChar, if_neg h1, if_neg h2, if_neg h3, if_pos h4]
            subst h4
            rw [hc]
            have he : parseEsc ('r' :: (cs.flatMap escChar ++ '"' :: r)) =
                some ('\r', cs.flatMap escChar ++ '"' :: r) := rfl
            simp only [List.cons_append, List.nil_append, parseStrBody_backslash, he, ih]
          · by_cases h5 : c = '\t'
            · have hc : escChar c = ['\\', 't'] := by
                rw [escChar, if_neg h1, if_neg h2, if_neg h3, if_neg h4, if_pos h5]
              subst h5
              rw [hc]
              have he : parseEsc ('t' :: (cs.flatMap escChar ++ '"' :: r)) =
                  some ('\t', cs.flatMap escChar ++ '"' :: r) := rfl
              simp only [List.cons_append, List.nil_append, parseStrBody_backslash, he, ih]
            · by_cases h6 : c = '\x08'
              · have hc : escChar c = ['\\', 'b'] := by
                  rw [escChar, if_neg h1, if_neg h2, if_neg h3, if_neg h4, if_neg h5, if_pos h6]
                subst h6
                rw [hc]
                have he : parseEsc ('b' :: (cs.flatMap escChar ++ '"' :: r)) =
                    some ('\x08', cs.flatMap escChar ++ '"' :: r) := rfl
                simp only [List.cons_append, List.nil_append, parseStrBody_backslash, he, ih]
              · by_cases h7 : c = '\x0c'
                · have hc : escChar c = ['\\', 'f'] := by
                    rw [escChar, if_neg h1, if_neg h2, if_neg h3, if_neg h4, if_neg h5,
                      if_neg h6, if_pos h7]
                  subst h7
                  rw [hc]
                  have he : parseEsc ('f' :: (cs.flatMap escChar ++ '"' :: r)) =
                      some ('\x0c', cs.flatMap escChar ++ '"' :: r) := rfl
                  simp only [List.cons_append, List.nil_append, parseStrBody_backslash, he, ih]
                · by_cases h8 : c.toNat < 32
                  · -- control character, escaped as a unicode escape
                    have hc : escChar c = ['\\', 'u', '0', '0',
                        hexDigitChar (c.toNat / 16), hexDigitChar (c.toNat % 16)] := by
                      rw [escChar, if_neg h1, if_neg h2, if_neg h3, if_neg h4, if_neg h5,
                        if_neg h6, if_neg h7, if_pos h8]
                    rw [hc]
                    have he : parseEsc ('u' :: '0' :: '0' :: hexDigitChar (c.toNat / 16) ::
                        hexDigitChar (c.toNat % 16) :: (cs.flatMap escChar ++ '"' :: r)) =
                        some (Char.ofNat (((hexVal '0' * 16 + hexVal '0') * 16 +
                          hexVal (hexDigitChar (c.toNat / 16))) * 16 +
                          hexVal (hexDigitChar (c.toNat % 16))),
                          cs.flatMap escChar ++ '"' :: r) := rfl
                    have hv : ((hexVal '0' * 16 + hexVal '0') * 16 +
                        hexVal (hexDigitChar (c.toNat / 16))) * 16 +
                        hexVal (hexDigitChar (c.toNat % 16)) = c.toNat := by
                      rw [hexVal_hexDigitChar (show c.toNat / 16 < 16 by omega),
                        hexVal_hexDigitChar (Nat.mod_lt _ (by omega)),
                        show hexVal '0' = 0 from rfl]
                      omega
                    simp only [List.cons_append, List.nil_append, parseStrBody_backslash, he,
                      hv, Char.ofNat_toNat, ih]
                  · have hc : escChar c = [c] := by
                      rw [escChar, if_neg h1, if_neg h2, if_neg h3, if_neg h4, if_neg h5,
                        if_neg h6, if_neg h7, if_neg h8]
                    rw [hc, List.singleton_append, parseStrBody_other h1 h2, ih]

/-- Serialized string values cancel: if two escaped-and-quoted strings agree as
prefixes of equal character lists, the strings and the remainders are equal. -/
theorem encB_cancel {s1 s2 : String} {r1 r2 : List Char}
    (h : encB s1 ++ r1 = encB s2 ++ r2) : s1 = s2 ∧ r1 = r2 := by
  simp only [encB, escBody, List.cons_append, List.append_assoc, List.cons.injEq,
    List.singleton_append, List.nil_append, true_and] at h
  have h1 := parseStrBody_roundtrip s1.data r1
  rw [h, parseStrBody_roundtrip s2.data r2] at h1
  simp only [Option.some.injEq, Prod.mk.injEq] at h1
  obtain ⟨hd, hr⟩ := h1
  exact ⟨by cases s1; cases s2; exact congrArg String.mk (by simpa using hd.symm), hr.symm⟩

/-! ## Further cancellation lemmas: decimal numbers and string arrays -/

theorem takeWhile_all_append {p : Char → Bool} {l : List Char} (h : ∀ c ∈ l, p c = true)
    {x : Char} (hx : p x = false) (xs : List Char) :
    (l ++ x :: xs).takeWhile p = l ∧ (l ++ x :: xs).dropWhile p = x :: xs := by
  induction l with
  | nil => simp [List.takeWhile_cons, List.dropWhile_cons, hx]
  | cons c cl ih =>
    have hc : p c = true := h c (by simp)
    have ih2 := ih (fun d hd => h d (by simp [hd]))
    simp [List.takeWhile_cons, List.dropWhile_cons, hc, ih2.1, ih2.2]

/-- Printed decimal numbers cancel when followed by a comma. -/
theorem natChars_cancel {a b : Nat} {r1 r2 : List Char}
    (h : natChars a ++ ',' :: r1 = natChars b ++ ',' :: r2) : a = b ∧ r1 = r2 := by
  have hcomma : (',' : Char).isDigit = false := rfl
  have t1 := takeWhile_all_append (natChars_all_digit a) hcomma r1
  have t2 := takeWhile_all_append (natChars_all_digit b) hcomma r2
  have heq : natChars a = natChars b := by rw [← t1.1, ← t2.1, h]
  have hdr : (',' :: r1 : List Char) = ',' :: r2 := by rw [← t1.2, ← t2.2, h]
  exact ⟨natChars_injective heq, by injection hdr⟩

/-- Characters of the comma-separated serialization of the tail of a JSON
string array (each further element preceded by a comma). -/
def strArrSep : List String → List Char
  | [] => []
  | s :: ss => ',' :: encB s ++ strArrSep ss

/-- Characters of the comma-separated serialization of a JSON string array
(without the surrounding brackets). -/
def strArrChars : List String → List Char
  | [] => []
  | s :: ss => encB s ++ strArrSep ss

theorem strArrSep_cancel : ∀ (as : List String) (bs : List String) (r1 r2 : List Char),
    strArrSep as ++ ']' :: r1 = strArrSep bs ++ ']' :: r2 → as = bs ∧ r1 = r2 := by
  intro as
  induction as with
  | nil =>
    intro bs r1 r2 h
    match bs with
    | [] => simp_all
    | b :: bs =>
      simp only [strArrSep, List.nil_append, List.cons_append, List.append_assoc,
        List.cons.injEq] at h
      exact absurd h.1 (by decide)
  | cons a' as' ih =>
    intro bs r1 r2 h
    match bs with
    | [] =>
      simp only [strArrSep, List.nil_append, List.cons_append, List.append_assoc,
        List.cons.injEq] at h
      exact absurd h.1 (by decide)
    | b' :: bs' =>
      simp only [strArrSep, List.cons_append, List.append_assoc, List.cons.injEq] at h
      obtain ⟨ha, hrest⟩ := encB_cancel h.2
      obtain ⟨hb, hr⟩ := ih bs' r1 r2 hrest
      exact ⟨by rw [ha, hb], hr⟩

theorem strArrChars_cancel {as bs : List String} {r1 r2 : List Char}
    (h : strArrChars as ++ ']' :: r1 = strArrChars bs ++ ']' :: r2) : as = bs ∧ r1 = r2 := by
  match as, bs with
  | [], [] => simp_all [strArrChars]
  | [], b :: bs =>
    simp only [strArrChars, List.nil_append, List.cons_append, List.append_assoc] at h
    have : (']' : Char) = '"' := by
      have h2 : (']' :: r1 : List Char) = '"' :: (escBody b ++ ('"' :: (strArrSep bs ++ ']' :: r2))) := by
        simpa [encB, escBody, List.cons_append, List.append_assoc] using h
      injection h2
    exact absurd this (by decide)
  | a :: as, [] =>
    simp only [strArrChars, List.nil_append, List.cons_append, List.append_assoc] at h
    have : ('"' : Char) = ']' := by
      have h2 : ('"' :: (escBody a ++ ('"' :: (strArrSep as ++ ']' :: r1))) : List Char) = ']' :: r2 := by
        simpa [encB, escBody, List.cons_append, List.append_assoc] using h
      injection h2
    exact absurd this (by decide)
  | a :: as, b :: bs =>
    simp only [strArrChars, List.append_assoc] at h
    obtain ⟨hab, hrest⟩ := encB_cancel h
    obtain ⟨hab2, hr⟩ := strArrSep_cancel as bs r1 r2 hrest
    exact ⟨by rw [hab, hab2], hr⟩

/-! ## JSON values and JSON.stringify -/

/-- JSON values.  Objects keep their fields in insertion order, as JavaScript
objects and JSON.stringify do.  Numbers are modelled as rationals (JavaScript
numbers relevant to this client are timestamps and confidence values). -/
inductive Json where
  | null : Json
  | bool : Bool → Json
  | num : ℚ → Json
  | str : String → Json
  | arr : List Json → Json
  | obj : List (String × Json) → Json

/-- Printing a JavaScript number, as JSON.stringify does: integers without a
decimal point, finite decimals with one.  (The model is restricted to
finite-decimal rationals, which covers every number this client puts into a
payload; the fallback branch is unreachable for those.) -/
def decExpAux (q : ℚ) : Nat → Nat → Option Nat
  | 0, _ => none
  | fuel + 1, k => if (q * (10 : ℚ) ^ k).den = 1 then some k else decExpAux q fuel (k + 1)

/-- JSON.stringify rendering of a JavaScript number. -/
def jsNumRepr (q : ℚ) : String :=
  if q.den = 1 then
    if q.num < 0 then "-" ++ natStr q.num.natAbs else natStr q.num.natAbs
  else
    match decExpAux q 400 1 with
    | some k =>
      let m := (q * (10 : ℚ) ^ k).num.natAbs
      (if q.num < 0 then "-" else "") ++ natStr (m / 10 ^ k) ++ "." ++
        ⟨List.replicate (k - (natChars (m % 10 ^ k)).length) '0' ++ natChars (m % 10 ^ k)⟩
    | none => "0"

mutual

/-- JSON.stringify without an indent argument: compact serialization, object
fields in insertion order, members joined by commas. -/
def Json.stringifyC : Json → String
  | .null => "null"
  | .bool b => if b then "true" else "false"
  | .num q => jsNumRepr q
  | .str s => encodeStr s
  | .arr [] => "[]"
  | .arr (x :: xs) => "[" ++ x.stringifyC ++ stringifyArrRest xs ++ "]"
  | .obj [] => "\x7b\x7d"
  | .obj (kv :: kvs) =>
    "\x7b" ++ encodeStr kv.1 ++ ":" ++ kv.2.stringifyC ++ stringifyObjRest kvs ++ "\x7d"

/-- Remaining array members, each preceded by a comma. -/
def stringifyArrRest : List Json → String
  | [] => ""
  | x :: xs => "," ++ x.stringifyC ++ stringifyArrRest xs

/-- Remaining object members, each preceded by a comma. -/
def stringifyObjRest : List (String × Json) → String
  | [] => ""
  | kv :: kvs => "," ++ encodeStr kv.1 ++ ":" ++ kv.2.stringifyC ++ stringifyObjRest kvs

end

mutual

/-- JSON.stringify with indent 2 (as in JSON.stringify(config, null, 2)),
at nesting prefix ind: members on their own lines, keys separated from values
by a colon and a space, closing bracket on the prefix of the enclosing level. -/
def Json.stringifyP (ind : String) : Json → String
  | .obj [] => "\x7b\x7d"
  | .obj (kv :: kvs) =>
    "\x7b\n" ++ stringifyPMember (ind ++ "  ") kv ++ stringifyPObjRest (ind ++ "  ") kvs ++
      "\n" ++ ind ++ "\x7d"
  | .arr [] => "[]"
  | .arr (x :: xs) =>
    "[\n" ++ (ind ++ "  ") ++ Json.stringifyP (ind ++ "  ") x ++
      stringifyPArrRest (ind ++ "  ") xs ++ "\n" ++ ind ++ "]"
  | v => v.stringifyC

/-- One indented object member in pretty serialization. -/
def stringifyPMember (ind : String) (kv : String × Json) : String :=
  ind ++ encodeStr kv.1 ++ ": " ++ Json.stringifyP ind kv.2

/-- Remaining pretty object members, comma-and-newline separated. -/
def stringifyPObjRest (ind : String) : List (String × Json) → String
  | [] => ""
  | kv :: kvs => ",\n" ++ stringifyPMember ind kv ++ stringifyPObjRest ind kvs

/-- Remaining pretty array members, comma-and-newline separated. -/
def stringifyPArrRest (ind : String) : List Json → String
  | [] => ""
  | x :: xs => ",\n" ++ ind ++ Json.stringifyP ind x ++ stringifyPArrRest ind xs

end

/-- Look up a field of a JSON object (first occurrence, as JavaScript property
access on the parsed value). -/
def Json.lookup (j : Json) (key : String) : Option Json :=
  match j with
  | .obj kvs => (kvs.find? (fun kv => kv.1 = key)).map (·.2)
  | _ => none

/-- Build a JSON object from fields whose values may be the JavaScript
undefined (`none`): JSON.stringify omits such properties entirely. -/
def jsObj (fields : List (String × Option Json)) : Json :=
  .obj (fields.filterMap (fun kv => kv.2.map (fun v => (kv.1, v))))

/-! ## The credential store: Config, its JSON form, and the config file -/

/-- An RSA key pair in PEM encoding, as produced by generateKeyPair. -/
structure KeyPair where
  publicKey : String
  privateKey : String
deriving DecidableEq

/-- The client configuration object: server URL, optional key pair, optional
session token. -/
structure Config where
  server : String
  keyPair : Option KeyPair
  token : Option String
deriving DecidableEq

/-- The initial value of the config object in both entry points. -/
def defaultConfig : Config :=
  { server := "http://localhost:3000", keyPair := none, token := none }

/-- JSON form of a key pair, fields in insertion order. -/
def KeyPair.toJson (kp : KeyPair) : Json :=
  .obj [("publicKey", .str kp.publicKey), ("privateKey", .str kp.privateKey)]

/-- JSON form of the config object as serialized by saveConfig:
fields server, keyPair, token in insertion order, null for absent values. -/
def Config.toJson (cfg : Config) : Json :=
  .obj [("server", .str cfg.server),
        ("keyPair", match cfg.keyPair with | some kp => kp.toJson | none => .null),
        ("token", match cfg.token with | some t => .str t | none => .null)]

/-- The on-disk config file: absent, unreadable or unparseable bytes
(Except.error), or parseable JSON (Except.ok).  The platform JSON codec is
modelled as the identity on JSON values. -/
abbrev Disk := Option (Except Unit Json)

/-- First field of a JSON object with the given key, if any. -/
def lookupField (kvs : List (String × Json)) (key : String) : Option Json :=
  (kvs.find? (fun kv => kv.1 = key)).map (·.2)

/-- The object spread merge of initConfig and loadConfig: start from the
in-memory base config and override each of its fields with the parsed file
value when the corresponding key is present.  The model is restricted to the
well-typed shapes that saveConfig itself writes; for a key bound to a value
of an unexpected shape the base value is kept. -/
def mergeConfig (base : Config) (j : Json) : Config :=
  match j with
  | .obj kvs =>
    { server :=
        match lookupField kvs "server" with
        | some (.str s) => s
        | _ => base.server
      keyPair :=
        match lookupField kvs "keyPair" with
        | some .null => none
        | some (.obj kp) =>
          (match lookupField kp "publicKey", lookupField kp "privateKey" with
           | some (.str pub), some (.str priv) => some ⟨pub, priv⟩
           | _, _ => base.keyPair)
        | _ => base.keyPair
      token :=
        match lookupField kvs "token" with
        | some .null => none
        | some (.str t) => some t
        | _ => base.token }
  | _ => base

/-- saveConfig: overwrite the config file with the JSON of the config. -/
def saveConfig (cfg : Config) (_d : Disk) : Disk := some (.ok cfg.toJson)

/-- initConfig of the CLI entry point: if no config file exists, keep the
default config and persist it; if the file parses, spread it over the
defaults; if reading or parsing fails, log the error and continue with the
default config, leaving the file as it is. -/
def initConfig : Disk → Config × Disk
  | none => (defaultConfig, saveConfig defaultConfig none)
  | some (.ok j) => (mergeConfig defaultConfig j, some (.ok j))
  | some (.error e) => (defaultConfig, some (.error e))

namespace OtrustCLI

/-- The library constructor's loadConfig: if the file exists and parses,
spread it over the instance config; on a read or parse error log and continue
with the current values.  When no file exists nothing happens and, in
particular, nothing is written. -/
def loadConfig (init : Config) : Disk → Config × Disk
  | none => (init, none)
  | some (.ok j) => (mergeConfig init j, some (.ok j))
  | some (.error e) => (init, some (.error e))

end OtrustCLI

/-- The CLI config command with a --server argument: set the server URL and
persist the config. -/
def configSetServer (cfg : Config) (d : Disk) (url : String) : Config × Disk :=
  let c := { cfg with server := url }
  (c, saveConfig c d)

/-- The CLI logout action: if not logged in, only print a message; otherwise
clear the token and persist. -/
def logout (cfg : Config) (d : Disk) : Config × Disk :=
  if cfg.token = none then (cfg, d)
  else
    let c := { cfg with token := none }
    (c, saveConfig c d)

/-- The library logout: clear the token, drop the auth header, persist. -/
def OtrustCLI.logout (cfg : Config) (d : Disk) : Config × Disk :=
  let c := { cfg with token := none }
  (c, saveConfig c d)

/-! ## Key generation -/

/-- The options object passed to crypto.generateKeyPairSync, identical in the
CLI generateKeyPair and the library generateKeyPair. -/
structure KeyGenOptions where
  algorithm : String
  modulusLength : Nat
  publicKeyType : String
  publicKeyFormat : String
  privateKeyType : String
  privateKeyFormat : String
deriving DecidableEq

/-- rsa, 2048-bit modulus, spki/pem public encoding, pkcs8/pem private
encoding — the exact options both key generation call sites pass. -/
def rsaKeyGenOptions : KeyGenOptions :=
  { algorithm := "rsa", modulusLength := 2048,
    publicKeyType := "spki", publicKeyFormat := "pem",
    privateKeyType := "pkcs8", privateKeyFormat := "pem" }

/-- publicKey.split on newline, slice(1, -2), join: the PEM body without the
header line and the trailing footer lines, as printed and returned by init. -/
def stripPem (s : String) : String :=
  String.join (((s.splitOn "\n").drop 1).dropLast.dropLast)

/-- The CLI init action.  fresh stands for the pair the key generation oracle
returns if it is invoked.  If a key pair exists and --force was not given,
nothing changes; otherwise the fresh pair is stored and persisted. -/
def initAction (cfg : Config) (force : Bool) (fresh : KeyPair) (d : Disk) : Config × Disk :=
  match cfg.keyPair, force with
  | some _, false => (cfg, d)
  | _, _ =>
    let c := { cfg with keyPair := some fresh }
    (c, saveConfig c d)

/-- The library init: same guard (generate when no pair is stored or force is
set), and additionally return the stripped public key of the resulting pair. -/
def OtrustCLI.init (cfg : Config) (force : Bool) (fresh : KeyPair) (d : Disk) :
    (Config × Disk) × String :=
  match cfg.keyPair, force with
  | some kp, false => ((cfg, d), stripPem kp.publicKey)
  | _, _ =>
    let c := { cfg with keyPair := some fresh }
    ((c, saveConfig c d), stripPem fresh.publicKey)

/-! ## The byte-level write performed by saveConfig (for the atomicity claim) -/

/-- The config file path (home directory abbreviated). -/
def CONFIG_FILE : String := "~/.otrust/config.json"

/-- A file-system write strategy: a single direct write to the target path,
or a write to a temporary path followed by an atomic rename. -/
inductive FsWrite where
  | direct (path : String) (content : String)
  | viaTempRename (path : String) (content : String)
deriving DecidableEq

/-- The write saveConfig performs: one direct fs.writeFileSync of
JSON.stringify(config, null, 2) to the config path. -/
def saveConfigWrite (cfg : Config) : FsWrite :=
  .direct CONFIG_FILE (cfg.toJson.stringifyP "")

/-- Possible on-disk contents if the process is interrupted during the write,
given the previous contents: a direct write first truncates the file and then
appends, so the old content or any prefix of the new content may remain;
a temp-write-then-rename leaves either the old or the new content intact. -/
def midWriteStates : FsWrite → Option String → List (Option String)
  | .direct _ content, old =>
    old :: (List.range (content.length + 1)).map (fun k => some ⟨content.data.take k⟩)
  | .viaTempRename _ content, old => [old, some content]

/-! ## Signed request payloads -/

/-- Canonical register/login payload: JSON.stringify of an object literal
with fields action, publicKey, timestamp, in that order. -/
def authPayload (action : String) (publicKey : String) (timestamp : ℕ) : String :=
  (Json.obj [("action", .str action), ("publicKey", .str publicKey),
    ("timestamp", .num (timestamp : ℚ))]).stringifyC

/-- The semantic triple of a claim. -/
structure Semantic where
  subject : String
  predicate : String
  object : String
deriving DecidableEq

/-- JSON form of the semantic triple, fields in insertion order. -/
def Semantic.toJson (s : Semantic) : Json :=
  .obj [("subject", .str s.subject), ("predicate", .str s.predicate),
    ("object", .str s.object)]

/-- The claim data handed to the payload builder. -/
structure ClaimData where
  claim : String
  evidence : List String
  type : String
  parent_id : Option String
  semantic : Semantic
deriving DecidableEq

/-- The JavaScript expression claimData.parent_id || null: the empty string
is falsy, so it collapses to null like an absent value. -/
def parentIdOrNull (p : Option String) : Option String :=
  match p with
  | some s => if s = "" then none else some s
  | none => none

/-- Canonical claim payload, shared by the CLI action (which always passes
parent_id null) and the library buildClaimPayload: JSON.stringify of an
object with fields claim, evidence, publicKey, type, parent_id, timestamp,
semantic, in that order. -/
def buildClaimPayload (cd : ClaimData) (publicKey : String) (timestamp : ℕ) : String :=
  (Json.obj [
    ("claim", .str cd.claim),
    ("evidence", .arr (cd.evidence.map .str)),
    ("publicKey", .str publicKey),
    ("type", .str cd.type),
    ("parent_id",
      match parentIdOrNull cd.parent_id with | some s => .str s | none => .null),
    ("timestamp", .num (timestamp : ℚ)),
    ("semantic", cd.semantic.toJson)]).stringifyC

/-- JavaScript parseFloat restricted to optionally signed plain decimal
literals (the only shapes this client passes it); leading whitespace,
exponents and Infinity are outside the model.  none models NaN. -/
def jsParseFloat? (s : String) : Option ℚ :=
  let p : Bool × List Char :=
    match s.data with
    | '-' :: t => (true, t)
    | '+' :: t => (false, t)
    | l => (false, l)
  let ds := p.2.takeWhile Char.isDigit
  let rest := p.2.dropWhile Char.isDigit
  let fs := match rest with
    | '.' :: t => t.takeWhile Char.isDigit
    | _ => []
  if ds = [] ∧ fs = [] then none
  else
    let mag : ℚ :=
      mkRat ((digitsVal ds * 10 ^ fs.length + digitsVal fs : Nat) : Int) (10 ^ fs.length)
    some (if p.1 then -mag else mag)

/-- The validate function of the interactive confidence prompt:
not NaN, at least 0 and at most 1. -/
def confidenceValidate (input : String) : Bool :=
  match jsParseFloat? input with
  | none => false
  | some v => decide (0 ≤ v) && decide (v ≤ 1)

/-- The flag values of the proof:add command.  none is an absent flag
(JavaScript undefined). -/
structure ProofOpts where
  claimId : Option String
  action : Option String
  reason : Option String
  confidence : Option String
  interactive : Bool
deriving DecidableEq

/-- The proofData record the CLI builds from the flags before the interactive
branch.  confidence is always a number here (none models NaN). -/
structure CliProofData where
  claimId : Option String
  action : Option String
  reason : Option String
  confidence : Option ℚ
deriving DecidableEq

/-- options.confidence ? parseFloat(options.confidence) : 1.0 — an absent or
empty (falsy) flag value yields the default 1.0. -/
def cliConfidence (o : Option String) : Option ℚ :=
  match o with
  | some s => if s = "" then some 1 else jsParseFloat? s
  | none => some 1

/-- The proofData built from flags in proof:add. -/
def proofDataOfOpts (o : ProofOpts) : CliProofData :=
  { claimId := o.claimId, action := o.action, reason := o.reason,
    confidence := cliConfidence o.confidence }

/-- JavaScript truthiness of an optional string: present and non-empty. -/
def truthyStr (o : Option String) : Bool :=
  match o with
  | some s => s != ""
  | none => false

/-- The condition under which proof:add enters the interactive prompt:
the --interactive flag, or a missing (falsy) claim id or action. -/
def interactiveTriggered (o : ProofOpts) : Bool :=
  o.interactive || !truthyStr o.claimId || !truthyStr o.action

/-- The canonical proof payload of the CLI, as a JSON object: fields claimId,
action, publicKey, timestamp, reason, confidence in that order; properties
whose value is undefined are omitted by JSON.stringify, and a NaN confidence
serializes as null. -/
def proofPayloadJson (pd : CliProofData) (publicKey : String) (timestamp : ℕ) : Json :=
  jsObj [
    ("claimId", pd.claimId.map .str),
    ("action", pd.action.map .str),
    ("publicKey", some (.str publicKey)),
    ("timestamp", some (.num (timestamp : ℚ))),
    ("reason", pd.reason.map .str),
    ("confidence", some (match pd.confidence with | some q => .num q | none => .null))]

/-- The canonical proof payload string of the CLI proof:add action. -/
def proofPayloadCli (pd : CliProofData) (publicKey : String) (timestamp : ℕ) : String :=
  (proofPayloadJson pd publicKey timestamp).stringifyC

/-- The proof data passed to the library addProof by a caller.  Every field
the caller omits is undefined and is dropped from the serialization. -/
structure LibProofData where
  claimId : Option String
  action : Option String
  reason : Option String
  confidence : Option ℚ
deriving DecidableEq

/-- The canonical proof payload of the library addProof: same field order as
the CLI, but reason and confidence may be undefined and then disappear. -/
def proofPayloadLib (pd : LibProofData) (publicKey : String) (timestamp : ℕ) : String :=
  (jsObj [
    ("claimId", pd.claimId.map .str),
    ("action", pd.action.map .str),
    ("publicKey", some (.str publicKey)),
    ("timestamp", some (.num (timestamp : ℚ))),
    ("reason", pd.reason.map .str),
    ("confidence", pd.confidence.map .num)]).stringifyC

/-! ## Guarded operations up to the HTTP boundary

Each operation returns either the HTTP request it would hand to the HTTP
client, or the error with which it stops before any request is issued. -/

/-- Failure categories of the client.  network is the transport category
produced by the HTTP layer; the precondition and persistence failures below
are raised locally, before any request. -/
inductive OpError where
  | usage (msg : String)
  | config (msg : String)
  | nullAccess (prop : String)
  | network (msg : String)
deriving DecidableEq

/-- Whether an error is raised locally (anything but a transport error). -/
def OpError.isLocal : OpError → Bool
  | .network _ => false
  | _ => true

/-- An HTTP request as handed to the HTTP client. -/
structure HttpRequest where
  method : String
  path : String
  body : Json

/-- Request body of the CLI claim:create: the collected claim data plus the
fields assigned before posting (timestamp, publicKey, parent_id null,
signature), in insertion order. -/
def claimBodyCli (cd : ClaimData) (pk : String) (ts : ℕ) (sig : String) : Json :=
  .obj [("claim", .str cd.claim), ("evidence", .arr (cd.evidence.map .str)),
        ("type", .str cd.type), ("semantic", cd.semantic.toJson),
        ("timestamp", .num (ts : ℚ)), ("publicKey", .str pk),
        ("parent_id", .null), ("signature", .str sig)]

/-- The CLI claim:create action from the point where the claim data is
complete: guard first (token and key pair), then sign and post.  sign is the
signing oracle (data, private key). -/
def claimCreateAction (sign : String → String → String) (cfg : Config) (cd : ClaimData)
    (timestamp : ℕ) : Except OpError HttpRequest :=
  match cfg.token, cfg.keyPair with
  | some _, some kp =>
    let cdn := { cd with parent_id := none }
    let payload := buildClaimPayload cdn kp.publicKey timestamp
    .ok { method := "POST", path := "/api/claim",
          body := claimBodyCli cd kp.publicKey timestamp (sign payload kp.privateKey) }
  | _, _ => .error (.usage "You must be logged in to create a claim")

/-- Request body of the CLI proof:add: the proof data plus timestamp,
publicKey and signature, in insertion order, undefined fields omitted. -/
def proofBodyCli (pd : CliProofData) (pk : String) (ts : ℕ) (sig : String) : Json :=
  jsObj [("claimId", pd.claimId.map .str), ("action", pd.action.map .str),
         ("reason", pd.reason.map .str),
         ("confidence", some (match pd.confidence with | some q => .num q | none => .null)),
         ("timestamp", some (.num (ts : ℚ))), ("publicKey", some (.str pk)),
         ("signature", some (.str sig))]

/-- The CLI proof:add action: guard first (token and key pair); then either
the flag-built proof data is used directly, or — when interactive mode is
triggered — it is replaced by the prompt answers (modelled by the
promptAnswers oracle); then sign and post. -/
def proofAddAction (sign : String → String → String) (cfg : Config) (opts : ProofOpts)
    (promptAnswers : CliProofData → CliProofData) (timestamp : ℕ) :
    Except OpError HttpRequest :=
  match cfg.token, cfg.keyPair with
  | some _, some kp =>
    let pd0 := proofDataOfOpts opts
    let pd := if interactiveTriggered opts then promptAnswers pd0 else pd0
    let payload := proofPayloadCli pd kp.publicKey timestamp
    .ok { method := "POST", path := "/api/proof",
          body := proofBodyCli pd kp.publicKey timestamp (sign payload kp.privateKey) }
  | _, _ => .error (.usage "You must be logged in to add a proof")

/-- The library buildClaimPayload: throws a configuration error when no key
pair is loaded, otherwise returns the canonical claim payload string. -/
def OtrustCLI.buildClaimPayload (cfg : Config) (cd : ClaimData) (ts : ℕ) :
    Except OpError String :=
  match cfg.keyPair with
  | none => .error (.config "Inget nyckelpar konfigurerat. Kör init() först.")
  | some kp => .ok (Otrust.buildClaimPayload cd kp.publicKey ts)

/-- Request body of the library createClaim: the parsed payload fields plus
the signature. -/
def claimBodyLib (cd : ClaimData) (pk : String) (ts : ℕ) (sig : String) : Json :=
  .obj [("claim", .str cd.claim),
        ("evidence", .arr (cd.evidence.map .str)),
        ("publicKey", .str pk),
        ("type", .str cd.type),
        ("parent_id",
          match parentIdOrNull cd.parent_id with | some s => .str s | none => .null),
        ("timestamp", .num (ts : ℚ)),
        ("semantic", cd.semantic.toJson),
        ("signature", .str sig)]

/-- The library createClaim: login guard, then buildClaimPayload (which
throws without a key pair), then sign and post. -/
def OtrustCLI.createClaim (sign : String → String → String) (cfg : Config) (cd : ClaimData)
    (ts : ℕ) : Except OpError HttpRequest :=
  match cfg.token with
  | none => .error (.usage "Du måste vara inloggad för att skapa påståenden")
  | some _ =>
    match cfg.keyPair with
    | none => .error (.config "Inget nyckelpar konfigurerat. Kör init() först.")
    | some kp =>
      .ok { method := "POST", path := "/api/claim",
            body := claimBodyLib cd kp.publicKey ts
              (sign (Otrust.buildClaimPayload cd kp.publicKey ts) kp.privateKey) }

/-- Request body of the library addProof: the parsed payload fields plus the
signature, undefined fields omitted. -/
def proofBodyLib (pd : LibProofData) (pk : String) (ts : ℕ) (sig : String) : Json :=
  jsObj [("claimId", pd.claimId.map .str), ("action", pd.action.map .str),
         ("publicKey", some (.str pk)),
         ("timestamp", some (.num (ts : ℚ))),
         ("reason", pd.reason.map .str),
         ("confidence", pd.confidence.map .num),
         ("signature", some (.str sig))]

/-- The library addProof: login guard only; with a token but no key pair the
expression this.config.keyPair.publicKey throws a TypeError (reading a
property of null) before any request. -/
def OtrustCLI.addProof (sign : String → String → String) (cfg : Config) (pd : LibProofData)
    (ts : ℕ) : Except OpError HttpRequest :=
  match cfg.token with
  | none => .error (.usage "Du måste vara inloggad för att lägga till bevis")
  | some _ =>
    match cfg.keyPair with
    | none => .error (.nullAccess "publicKey")
    | some kp =>
      let payload := proofPayloadLib pd kp.publicKey ts
      .ok { method := "POST", path := "/api/proof",
            body := proofBodyLib pd kp.publicKey ts (sign payload kp.privateKey) }

/-! ## Normal forms of the canonical payload strings -/

theorem str_ext {s t : String} (h : s.data = t.data) : s = t := by
  cases s; cases t; exact congrArg String.mk (by simpa using h)

theorem jsNumRepr_natCast (n : ℕ) : jsNumRepr ((n : ℚ)) = natStr n := by
  unfold jsNumRepr
  rw [if_pos (by simp), Rat.num_natCast,
    if_neg (Int.not_lt.mpr (Int.natCast_nonneg n))]
  exact congrArg natStr (Int.natAbs_ofNat n)

theorem natStr_data (n : ℕ) : (natStr n).data = natChars n := rfl

theorem encodeStr_data (s : String) : (encodeStr s).data = encB s := rfl

/-- The register/login canonical payload, written out. -/
theorem authPayload_eq (a pk : String) (ts : ℕ) :
    authPayload a pk ts =
      "\x7b\"action\":" ++ encodeStr a ++ ",\"publicKey\":" ++ encodeStr pk ++
        ",\"timestamp\":" ++ natStr ts ++ "\x7d" := by
  apply str_ext
  simp [authPayload, Json.stringifyC, stringifyObjRest, encodeStr, encB, escBody, escChar,
    jsNumRepr_natCast, natStr, String.data_append, List.append_assoc]

/-- JSON serialization of an array of strings, brackets included. -/
def strArrStr (l : List String) : String := ⟨'[' :: (strArrChars l ++ [']'])⟩

theorem stringifyArrRest_str_data (l : List String) :
    (stringifyArrRest (l.map .str)).data = strArrSep l := by
  induction l with
  | nil => rfl
  | cons s ss ih =>
    simp [stringifyArrRest, Json.stringifyC, strArrSep, encodeStr, String.data_append, ih,
      List.append_assoc]

theorem stringifyC_strArr_data (l : List String) :
    (Json.stringifyC (.arr (l.map .str))).data = '[' :: (strArrChars l ++ [']']) := by
  match l with
  | [] => rfl
  | s :: ss =>
    simp [Json.stringifyC, strArrChars, encodeStr, String.data_append,
      stringifyArrRest_str_data, List.append_assoc]

/-- The serialized parent_id value: null or a JSON string. -/
def parentChars (p : Option String) : List Char :=
  match parentIdOrNull p with
  | some s => encB s
  | none => ['n', 'u', 'l', 'l']

/-- The claim canonical payload at the character level, fully right-grouped
for sequential cancellation. -/
theorem buildClaimPayload_data (cd : ClaimData) (pk : String) (ts : ℕ) :
    (buildClaimPayload cd pk ts).data =
      ("\x7b\"claim\":").data ++ (encB cd.claim ++
        ((",\"evidence\":[").data ++ (strArrChars cd.evidence ++
          (']' :: ((",\"publicKey\":").data ++ (encB pk ++
            ((",\"type\":").data ++ (encB cd.type ++
              ((",\"parent_id\":").data ++ (parentChars cd.parent_id ++
                (',' :: (("\"timestamp\":").data ++ (natChars ts ++
                  (',' :: (("\"semantic\":\x7b\"subject\":").data ++
                    (encB cd.semantic.subject ++
                      ((",\"predicate\":").data ++ (encB cd.semantic.predicate ++
                        ((",\"object\":").data ++ (encB cd.semantic.object ++
                          ("\x7d\x7d").data)))))))))))))))))))) := by
  rcases hp : parentIdOrNull cd.parent_id with _ | s <;>
    simp [buildClaimPayload, Json.stringifyC, stringifyObjRest, Semantic.toJson, hp,
      parentChars, encodeStr, encB, escBody, escChar, jsNumRepr_natCast, natStr,
      stringifyC_strArr_data, strArrChars, strArrSep,
      String.data_append, List.append_assoc]

/-- The claim canonical payload, written out at the string level. -/
theorem buildClaimPayload_eq (cd : ClaimData) (pk : String) (ts : ℕ) :
    buildClaimPayload cd pk ts =
      "\x7b\"claim\":" ++ encodeStr cd.claim ++ ",\"evidence\":" ++
        strArrStr cd.evidence ++ ",\"publicKey\":" ++ encodeStr pk ++ ",\"type\":" ++
        encodeStr cd.type ++ ",\"parent_id\":" ++ (⟨parentChars cd.parent_id⟩ : String) ++
        ",\"timestamp\":" ++ natStr ts ++ ",\"semantic\":\x7b\"subject\":" ++
        encodeStr cd.semantic.subject ++ ",\"predicate\":" ++
        encodeStr cd.semantic.predicate ++ ",\"object\":" ++
        encodeStr cd.semantic.object ++ "\x7d\x7d" := by
  apply str_ext
  rw [buildClaimPayload_data]
  simp [strArrStr, encodeStr, natStr, String.data_append, List.append_assoc]

/-- parent_id serializations cancel (up to the null normalization). -/
theorem parentChars_cancel {p1 p2 : Option String} {r1 r2 : List Char}
    (h : parentChars p1 ++ ',' :: r1 = parentChars p2 ++ ',' :: r2) :
    parentIdOrNull p1 = parentIdOrNull p2 ∧ r1 = r2 := by
  unfold parentChars at h
  rcases hq1 : parentIdOrNull p1 with _ | s1 <;> rcases hq2 : parentIdOrNull p2 with _ | s2 <;>
    rw [hq1, hq2] at h
  · refine ⟨rfl, ?_⟩
    simpa using h
  · rw [show encB s2 ++ (',' :: r2) = '"' :: (escBody s2 ++ ('"' :: ',' :: r2)) by
      simp [encB, List.cons_append, List.append_assoc]] at h
    have : ('n' : Char) = '"' := by injection h
    exact absurd this (by decide)
  · rw [show encB s1 ++ (',' :: r1) = '"' :: (escBody s1 ++ ('"' :: ',' :: r1)) by
      simp [encB, List.cons_append, List.append_assoc]] at h
    have : ('"' : Char) = 'n' := by injection h
    exact absurd this (by decide)
  · obtain ⟨hs, hr⟩ := encB_cancel h
    refine ⟨by rw [hs], by injection hr⟩

/-- Full field recovery from a claim canonical payload: two payloads are
equal only if every serialized field agrees (parent_id up to the null
normalization). -/
theorem buildClaimPayload_fields_eq {cd1 cd2 : ClaimData} {pk1 pk2 : String} {ts1 ts2 : ℕ}
    (h : buildClaimPayload cd1 pk1 ts1 = buildClaimPayload cd2 pk2 ts2) :
    cd1.claim = cd2.claim ∧ cd1.evidence = cd2.evidence ∧ pk1 = pk2 ∧
    cd1.type = cd2.type ∧ parentIdOrNull cd1.parent_id = parentIdOrNull cd2.parent_id ∧
    ts1 = ts2 ∧ cd1.semantic = cd2.semantic := by
  have hd := congrArg String.data h
  rw [buildClaimPayload_data, buildClaimPayload_data] at hd
  have hd := List.append_cancel_left hd
  obtain ⟨hclaim, hd⟩ := encB_cancel hd
  have hd := List.append_cancel_left hd
  obtain ⟨hev, hd⟩ := strArrChars_cancel hd
  have hd := List.append_cancel_left hd
  obtain ⟨hpk, hd⟩ := encB_cancel hd
  have hd := List.append_cancel_left hd
  obtain ⟨hty, hd⟩ := encB_cancel hd
  have hd := List.append_cancel_left hd
  obtain ⟨hpar, hd⟩ := parentChars_cancel hd
  have hd := List.append_cancel_left hd
  obtain ⟨hts, hd⟩ := natChars_cancel hd
  have hd := List.append_cancel_left hd
  obtain ⟨hsub, hd⟩ := encB_cancel hd
  have hd := List.append_cancel_left hd
  obtain ⟨hpred, hd⟩ := encB_cancel hd
  have hd := List.append_cancel_left hd
  obtain ⟨hobj, _⟩ := encB_cancel hd
  refine ⟨hclaim, hev, hpk, hty, hpar, hts, ?_⟩
  have e1 : cd1.semantic = ⟨cd1.semantic.subject, cd1.semantic.predicate, cd1.semantic.object⟩ :=
    rfl
  have e2 : cd2.semantic = ⟨cd2.semantic.subject, cd2.semantic.predicate, cd2.semantic.object⟩ :=
    rfl
  rw [e1, e2, hsub, hpred, hobj]

theorem flatMap_escChar_of_escFree {l : List Char} (h : ∀ c ∈ l, escChar c = [c]) :
    l.flatMap escChar = l := by
  induction l with
  | nil => rfl
  | cons c cl ih => simp [h c (by simp), ih (fun d hd => h d (by simp [hd]))]

/-- A string with no characters requiring escaping serializes as itself
between two quotes. -/
theorem encodeStr_of_escFree {s : String} (h : escFree s) : encodeStr s = "\"" ++ s ++ "\"" := by
  apply str_ext
  simp [encodeStr, encB, escBody, String.data_append, flatMap_escChar_of_escFree h]

/-- The library proof payload with every field supplied, written out. -/
theorem proofPayloadLib_eq (cid act r : String) (conf : ℚ) (pk : String) (ts : ℕ) :
    proofPayloadLib ⟨some cid, some act, some r, some conf⟩ pk ts =
      "\x7b\"claimId\":" ++ encodeStr cid ++ ",\"action\":" ++ encodeStr act ++
        ",\"publicKey\":" ++ encodeStr pk ++ ",\"timestamp\":" ++ natStr ts ++
        ",\"reason\":" ++ encodeStr r ++ ",\"confidence\":" ++ jsNumRepr conf ++ "\x7d" := by
  apply str_ext
  simp [proofPayloadLib, jsObj, Json.stringifyC, stringifyObjRest, encodeStr, encB, escBody,
    escChar, jsNumRepr_natCast, natStr, String.data_append, List.append_assoc]

/-- The same payload without a reason: the reason key is absent. -/
theorem proofPayloadLib_eq_noReason (cid act : String) (conf : ℚ) (pk : String) (ts : ℕ) :
    proofPayloadLib ⟨some cid, some act, none, some conf⟩ pk ts =
      "\x7b\"claimId\":" ++ encodeStr cid ++ ",\"action\":" ++ encodeStr act ++
        ",\"publicKey\":" ++ encodeStr pk ++ ",\"timestamp\":" ++ natStr ts ++
        ",\"confidence\":" ++ jsNumRepr conf ++ "\x7d" := by
  apply str_ext
  simp [proofPayloadLib, jsObj, Json.stringifyC, stringifyObjRest, encodeStr, encB, escBody,
    escChar, jsNumRepr_natCast, natStr, String.data_append, List.append_assoc]

/-- Reading back the serialized config recovers every field, whatever the
in-memory base config is at merge time. -/
theorem mergeConfig_toJson (base cfg : Config) : mergeConfig base cfg.toJson = cfg := by
  rcases cfg with ⟨srv, kp, tok⟩
  rcases kp with _ | ⟨pub, priv⟩ <;> rcases tok with _ | t <;> rfl

/-- The parent_id normalization is injective away from the empty string. -/
theorem parentIdOrNull_inj {p1 p2 : Option String} (h1 : p1 ≠ some "") (h2 : p2 ≠ some "")
    (h : parentIdOrNull p1 = parentIdOrNull p2) : p1 = p2 := by
  match p1, p2 with
  | none, none => rfl
  | none, some s2 =>
    have n2 : ¬s2 = "" := fun e => h2 (by rw [e])
    simp [parentIdOrNull, n2] at h
  | some s1, none =>
    have n1 : ¬s1 = "" := fun e => h1 (by rw [e])
    simp [parentIdOrNull, n1] at h
  | some s1, some s2 =>
    have n1 : ¬s1 = "" := fun e => h1 (by rw [e])
    have n2 : ¬s2 = "" := fun e => h2 (by rw [e])
    simp only [parentIdOrNull, if_neg n1, if_neg n2, Option.some.injEq] at h
    rw [h]

/-! ## The claims -/

set_option maxRecDepth 8000

/-- C1, counterexample: the proof payload does not always serialize the field
set claimId, action, publicKey, timestamp, reason, confidence.  In a
non-interactive proof:add without a reason flag (and likewise in the library
addProof without a reason), the reason property is undefined and
JSON.stringify omits it: the canonical string contains no reason key. -/
theorem proof_payload_drops_absent_reason :
    proofPayloadCli ⟨some "abc", some "confirmed", none, some 1⟩ "PK" 5 =
      "\x7b\"claimId\":\"abc\",\"action\":\"confirmed\",\"publicKey\":\"PK\",\"timestamp\":5,\"confidence\":1\x7d" ∧
    ¬ List.IsInfix ("\"reason\"").data
      (proofPayloadCli ⟨some "abc", some "confirmed", none, some 1⟩ "PK" 5).data ∧
    proofPayloadLib ⟨some "abc", some "confirmed", none, some 1⟩ "PK" 5 =
      "\x7b\"claimId\":\"abc\",\"action\":\"confirmed\",\"publicKey\":\"PK\",\"timestamp\":5,\"confidence\":1\x7d" := by
  refine ⟨by decide, ?_, by decide⟩
  decide

/-- C1 (amended): the canonical payload strings are the JSON serializations
of exactly the specified fields in the specified order — register/login an
object with action, publicKey, timestamp; claim creation one with claim,
evidence, publicKey, type, parent_id, timestamp, semantic; proof addition one
with claimId, action, publicKey, timestamp, reason, confidence, except that a
field whose value is undefined (an omitted reason, or an omitted confidence
in the library API) is dropped from the serialization.  For a login with
public key P and timestamp T the canonical string is exactly the literal
with P and T spliced in, with P JSON-escaped; when P needs no escaping it is
the exact literal of the claim. -/
theorem canonical_payload_shapes :
    (∀ a pk ts, authPayload a pk ts =
      "\x7b\"action\":" ++ encodeStr a ++ ",\"publicKey\":" ++ encodeStr pk ++
        ",\"timestamp\":" ++ natStr ts ++ "\x7d") ∧
    (∀ pk ts, escFree pk → authPayload "login" pk ts =
      "\x7b\"action\":\"login\",\"publicKey\":\"" ++ pk ++ "\",\"timestamp\":" ++
        natStr ts ++ "\x7d") ∧
    (∀ cd pk ts, buildClaimPayload cd pk ts =
      "\x7b\"claim\":" ++ encodeStr cd.claim ++ ",\"evidence\":" ++
        strArrStr cd.evidence ++ ",\"publicKey\":" ++ encodeStr pk ++ ",\"type\":" ++
        encodeStr cd.type ++ ",\"parent_id\":" ++ (⟨parentChars cd.parent_id⟩ : String) ++
        ",\"timestamp\":" ++ natStr ts ++ ",\"semantic\":\x7b\"subject\":" ++
        encodeStr cd.semantic.subject ++ ",\"predicate\":" ++
        encodeStr cd.semantic.predicate ++ ",\"object\":" ++
        encodeStr cd.semantic.object ++ "\x7d\x7d") ∧
    (∀ cid act r conf pk ts, proofPayloadLib ⟨some cid, some act, some r, some conf⟩ pk ts =
      "\x7b\"claimId\":" ++ encodeStr cid ++ ",\"action\":" ++ encodeStr act ++
        ",\"publicKey\":" ++ encodeStr pk ++ ",\"timestamp\":" ++ natStr ts ++
        ",\"reason\":" ++ encodeStr r ++ ",\"confidence\":" ++ jsNumRepr conf ++ "\x7d") ∧
    (∀ cid act conf pk ts, proofPayloadLib ⟨some cid, some act, none, some conf⟩ pk ts =
      "\x7b\"claimId\":" ++ encodeStr cid ++ ",\"action\":" ++ encodeStr act ++
        ",\"publicKey\":" ++ encodeStr pk ++ ",\"timestamp\":" ++ natStr ts ++
        ",\"confidence\":" ++ jsNumRepr conf ++ "\x7d") := by
  refine ⟨authPayload_eq, ?_, buildClaimPayload_eq, proofPayloadLib_eq,
    proofPayloadLib_eq_noReason⟩
  intro pk ts h
  rw [authPayload_eq, encodeStr_of_escFree h,
    show encodeStr "login" = "\"login\"" from by decide]
  apply str_ext
  simp [String.data_append, List.append_assoc]

/-- Witness for the amended C1 at concrete inputs, the login hypothesis
discharged at the escape-free key P. -/
theorem canonical_payload_shapes_witness :
    authPayload "login" "P" 7 =
      "\x7b\"action\":\"login\",\"publicKey\":\"" ++ "P" ++ "\",\"timestamp\":" ++
        natStr 7 ++ "\x7d" :=
  canonical_payload_shapes.2.1 "P" 7 (by decide)

/-- C2, counterexample: two claim inputs that differ in the parent_id field
(the empty string versus null) produce byte-identical canonical strings,
because the builder evaluates parent_id through the falsy-collapsing
expression parent_id-or-null. -/
theorem buildPayload_not_injective_on_parent_id :
    (⟨"c", ["e"], "factual", some "", ⟨"s", "p", "o"⟩⟩ : ClaimData) ≠
      ⟨"c", ["e"], "factual", none, ⟨"s", "p", "o"⟩⟩ ∧
    buildClaimPayload ⟨"c", ["e"], "factual", some "", ⟨"s", "p", "o"⟩⟩ "PK" 0 =
      buildClaimPayload ⟨"c", ["e"], "factual", none, ⟨"s", "p", "o"⟩⟩ "PK" 0 := by
  exact ⟨by decide, by decide⟩

/-- C2 (amended): buildClaimPayload is deterministic — identical inputs with
the same timestamp give byte-identical output — and injective on all inputs
except for the parent_id collapse: whenever neither parent_id is the empty
string, equal canonical strings force equal claim data, public key and
timestamp. -/
theorem buildPayload_deterministic_and_injective :
    (∀ cd pk ts, buildClaimPayload cd pk ts = buildClaimPayload cd pk ts) ∧
    (∀ (cd1 cd2 : ClaimData) (pk1 pk2 : String) (ts1 ts2 : ℕ),
      cd1.parent_id ≠ some "" → cd2.parent_id ≠ some "" →
      buildClaimPayload cd1 pk1 ts1 = buildClaimPayload cd2 pk2 ts2 →
      cd1 = cd2 ∧ pk1 = pk2 ∧ ts1 = ts2) := by
  refine ⟨fun _ _ _ => rfl, ?_⟩
  intro cd1 cd2 pk1 pk2 ts1 ts2 h1 h2 h
  obtain ⟨hc, he, hp, ht, hpar, hts, hsem⟩ := buildClaimPayload_fields_eq h
  have hparent := parentIdOrNull_inj h1 h2 hpar
  refine ⟨?_, hp, hts⟩
  rcases cd1 with ⟨c1, e1, t1, p1, s1⟩
  rcases cd2 with ⟨c2, e2, t2, p2, s2⟩
  simp only at hc he ht hparent hsem
  rw [hc, he, ht, hparent, hsem]

/-- Witness for the amended C2: the injectivity direction applied at concrete
equal payloads. -/
theorem buildPayload_deterministic_and_injective_witness :
    (⟨"c", ["e"], "factual", none, ⟨"s", "p", "o"⟩⟩ : ClaimData) =
      ⟨"c", ["e"], "factual", none, ⟨"s", "p", "o"⟩⟩ ∧ "PK" = "PK" ∧ 3 = 3 :=
  buildPayload_deterministic_and_injective.2
    ⟨"c", ["e"], "factual", none, ⟨"s", "p", "o"⟩⟩
    ⟨"c", ["e"], "factual", none, ⟨"s", "p", "o"⟩⟩
    "PK" "PK" 3 3 (by decide) (by decide) rfl

/-- C3: every attempt to build or sign a claim or proof payload with no key
pair in the config stops with a locally raised error — a usage or
configuration error, or (in the library addProof) the TypeError from reading
publicKey of null — never a transport error, and no HTTP request is produced
(an error result is returned before the request value is ever built). -/
theorem signing_without_keypair_fails_locally :
    ∀ (sign : String → String → String) (cfg : Config) (cd : ClaimData)
      (opts : ProofOpts) (prompt : CliProofData → CliProofData) (pd : LibProofData) (ts : ℕ),
      cfg.keyPair = none →
      (∃ e, claimCreateAction sign cfg cd ts = .error e ∧ e.isLocal = true) ∧
      (∃ e, proofAddAction sign cfg opts prompt ts = .error e ∧ e.isLocal = true) ∧
      OtrustCLI.buildClaimPayload cfg cd ts =
        .error (.config "Inget nyckelpar konfigurerat. Kör init() först.") ∧
      (∃ e, OtrustCLI.createClaim sign cfg cd ts = .error e ∧ e.isLocal = true) ∧
      (∃ e, OtrustCLI.addProof sign cfg pd ts = .error e ∧ e.isLocal = true) := by
  intro sign cfg cd opts prompt pd ts hkp
  rcases cfg with ⟨srv, kpc, tok⟩
  obtain rfl : kpc = none := hkp
  rcases tok with _ | t
  · exact ⟨⟨_, rfl, rfl⟩, ⟨_, rfl, rfl⟩, rfl, ⟨_, rfl, rfl⟩, ⟨_, rfl, rfl⟩⟩
  · exact ⟨⟨_, rfl, rfl⟩, ⟨_, rfl, rfl⟩, rfl, ⟨_, rfl, rfl⟩, ⟨_, rfl, rfl⟩⟩

/-- Witness for C3 at a concrete logged-in config with no key pair. -/
theorem signing_without_keypair_fails_locally_witness :
    OtrustCLI.buildClaimPayload ⟨"s", none, some "tok"⟩
        ⟨"c", ["e"], "factual", none, ⟨"s", "p", "o"⟩⟩ 3 =
      .error (.config "Inget nyckelpar konfigurerat. Kör init() först.") :=
  (signing_without_keypair_fails_locally (fun d _ => d) ⟨"s", none, some "tok"⟩
    ⟨"c", ["e"], "factual", none, ⟨"s", "p", "o"⟩⟩
    ⟨some "id", some "confirmed", none, none, false⟩ id
    ⟨some "id", some "confirmed", none, none⟩ 3 rfl).2.2.1

/-- C4, counterexample: saveConfig is a single direct write, and interrupting
it mid-write can leave the file holding a strict prefix of the new content —
a state that is neither the previous contents nor the new contents, so the
previously valid file is not protected. -/
theorem save_mid_write_can_corrupt :
    ¬ (∀ s ∈ midWriteStates (saveConfigWrite defaultConfig) (some "OLD"),
        s = some "OLD" ∨ s = some (defaultConfig.toJson.stringifyP "")) := by
  intro h
  have hm : (some "" : Option String) ∈
      midWriteStates (saveConfigWrite defaultConfig) (some "OLD") := by decide
  rcases h _ hm with h1 | h1 <;> revert h1 <;> decide

/-- C4 (amended): saveConfig overwrites the config file with one direct
fs.writeFileSync of the serialized config — there is no write-to-temp-path
and rename — and for every previous file content some mid-write interruption
state differs from both the old and the new content. -/
theorem save_is_single_direct_write :
    ∀ (cfg : Config) (old : Option String),
      saveConfigWrite cfg = .direct CONFIG_FILE (cfg.toJson.stringifyP "") ∧
      ∃ s ∈ midWriteStates (saveConfigWrite cfg) old,
        s ≠ old ∧ s ≠ some (cfg.toJson.stringifyP "") := by
  intro cfg old
  refine ⟨rfl, ?_⟩
  have hdata : ∃ rest, (cfg.toJson.stringifyP "").data = '\x7b' :: '\n' :: rest := by
    simp [Config.toJson, Json.stringifyP, String.data_append, List.append_assoc]
  obtain ⟨rest, hdata⟩ := hdata
  have hlen : (cfg.toJson.stringifyP "").length = rest.length + 2 := by
    show (cfg.toJson.stringifyP "").data.length = _
    rw [hdata]; simp
  have hm0 : (some "" : Option String) ∈ midWriteStates (saveConfigWrite cfg) old := by
    show (some "" : Option String) ∈ old ::
      (List.range ((cfg.toJson.stringifyP "").length + 1)).map
        (fun k => some ⟨(cfg.toJson.stringifyP "").data.take k⟩)
    refine List.mem_cons_of_mem _ (List.mem_map.mpr ⟨0, List.mem_range.mpr (by omega), ?_⟩)
    simp
  have hm1 : (some "\x7b" : Option String) ∈ midWriteStates (saveConfigWrite cfg) old := by
    show (some "\x7b" : Option String) ∈ old ::
      (List.range ((cfg.toJson.stringifyP "").length + 1)).map
        (fun k => some ⟨(cfg.toJson.stringifyP "").data.take k⟩)
    refine List.mem_cons_of_mem _ (List.mem_map.mpr ⟨1, List.mem_range.mpr (by omega), ?_⟩)
    rw [hdata]
    rfl
  have hne0 : (some "" : Option String) ≠ some (cfg.toJson.stringifyP "") := by
    intro h
    injection h with h'
    have := congrArg String.data h'
    rw [hdata] at this
    simp at this
  have hne1 : (some "\x7b" : Option String) ≠ some (cfg.toJson.stringifyP "") := by
    intro h
    injection h with h'
    have := congrArg String.data h'
    rw [hdata] at this
    simp at this
  by_cases hold : old = some ""
  · refine ⟨some "\x7b", hm1, ?_, hne1⟩
    rw [hold]
    intro h
    injection h with h'
    exact absurd h' (by decide)
  · exact ⟨some "", hm0, fun h => hold h.symm, hne0⟩

/-- C5: the config round-trips through the file — saving any config value and
loading it back (in the CLI initConfig, merging over the defaults, or in the
library loadConfig, merging over any base) returns a config equal to the
saved one in all fields, with the file left as written. -/
theorem config_save_load_roundtrip :
    ∀ (cfg : Config) (d : Disk),
      initConfig (saveConfig cfg d) = (cfg, saveConfig cfg d) ∧
      ∀ base, OtrustCLI.loadConfig base (saveConfig cfg d) = (cfg, saveConfig cfg d) := by
  intro cfg d
  constructor
  · show (mergeConfig defaultConfig cfg.toJson, (some (Except.ok cfg.toJson) : Disk)) = _
    rw [mergeConfig_toJson]
    rfl
  · intro base
    show (mergeConfig base cfg.toJson, (some (Except.ok cfg.toJson) : Disk)) = _
    rw [mergeConfig_toJson]
    rfl

/-- C6: key generation requests a 2048-bit RSA pair; with an existing stored
pair, init without force leaves config and file untouched (so two such calls
yield the same stored pair) and reports the existing public key; init with
force stores the freshly generated pair, which differs from the old stored
value whenever the generator output does. -/
theorem keygen_idempotent_and_refresh :
    rsaKeyGenOptions.modulusLength = 2048 ∧
    ∀ (cfg : Config) (d : Disk) (kp fresh : KeyPair),
      cfg.keyPair = some kp →
      initAction cfg false fresh d = (cfg, d) ∧
      OtrustCLI.init cfg false fresh d = ((cfg, d), stripPem kp.publicKey) ∧
      (initAction cfg true fresh d).1.keyPair = some fresh ∧
      (OtrustCLI.init cfg true fresh d).1.1.keyPair = some fresh ∧
      (fresh ≠ kp → (initAction cfg true fresh d).1.keyPair ≠ some kp) := by
  refine ⟨rfl, ?_⟩
  intro cfg d kp fresh hkp
  rcases cfg with ⟨srv, kpc, tok⟩
  obtain rfl : kpc = some kp := hkp
  refine ⟨rfl, rfl, rfl, rfl, fun hne h => hne (by injection h)⟩

/-- Witness for C6 at a concrete config holding a key pair. -/
theorem keygen_idempotent_and_refresh_witness :
    initAction ⟨"s", some ⟨"a", "b"⟩, none⟩ false ⟨"c", "d"⟩ none =
      (⟨"s", some ⟨"a", "b"⟩, none⟩, none) :=
  (keygen_idempotent_and_refresh.2 ⟨"s", some ⟨"a", "b"⟩, none⟩ none ⟨"a", "b"⟩ ⟨"c", "d"⟩
    rfl).1

/-- C7, counterexample: the library loadConfig with no file present returns
the defaults but writes nothing — the default is not persisted to disk,
against the claim that load() implicitly persists it. -/
theorem lib_load_does_not_persist_default :
    OtrustCLI.loadConfig defaultConfig none = (defaultConfig, none) ∧
    (none : Disk) ≠ saveConfig defaultConfig none := by
  refine ⟨rfl, ?_⟩
  intro h
  cases h

/-- C7 (amended): with no config file present, both loaders return the
default config without error; the CLI initConfig additionally persists that
default to disk, while the library loadConfig leaves the disk untouched. -/
theorem load_without_file_returns_defaults :
    initConfig none = (defaultConfig, saveConfig defaultConfig none) ∧
    ∀ base, OtrustCLI.loadConfig base none = (base, none) :=
  ⟨rfl, fun _ => rfl⟩

/-- C8, counterexample: with an unreadable config file, initConfig reports
the error but continues with the default in-memory config instead of
aborting, and a subsequent config --server command overwrites the on-disk
file with default-derived state. -/
theorem unreadable_config_not_aborted :
    (initConfig (some (.error ()))).1 = defaultConfig ∧
    (initConfig (some (.error ()))).2 = some (.error ()) ∧
    (configSetServer (initConfig (some (.error ()))).1 (initConfig (some (.error ()))).2
        "http://example.org").2 =
      some (.ok (Config.toJson { defaultConfig with server := "http://example.org" })) ∧
    (some (.ok (Config.toJson { defaultConfig with server := "http://example.org" })) : Disk) ≠
      some (.error ()) := by
  refine ⟨rfl, rfl, rfl, ?_⟩
  intro h
  injection h with h'
  cases h'

/-- C8 (amended): a read or parse error of the config file is reported but
the CLI continues with the default config and an unchanged file; any later
mutating command — here config --server — then overwrites the on-disk file
with state derived from the defaults. -/
theorem read_error_continues_with_defaults :
    ∀ url : String,
      initConfig (some (.error ())) = (defaultConfig, some (.error ())) ∧
      configSetServer defaultConfig (some (.error ())) url =
        ({ defaultConfig with server := url },
          some (.ok (Config.toJson { defaultConfig with server := url }))) :=
  fun _ => ⟨rfl, rfl⟩

/-- C9: logout clears exactly the token.  In memory the server URL and key
pair are unchanged and the token is gone; the CLI persists the result when it
was logged in (and leaves everything untouched when it was not), the library
always persists; what is persisted is the JSON of the updated config, whose
server and keyPair fields therefore equal the previous ones. -/
theorem logout_clears_only_token :
    ∀ (cfg : Config) (d : Disk),
      ((logout cfg d).1.token = none ∧
       (logout cfg d).1.server = cfg.server ∧
       (logout cfg d).1.keyPair = cfg.keyPair ∧
       (cfg.token = none → logout cfg d = (cfg, d)) ∧
       (∀ t, cfg.token = some t →
         (logout cfg d).2 = some (.ok (Config.toJson (logout cfg d).1)))) ∧
      (OtrustCLI.logout cfg d).1 = { cfg with token := none } ∧
      (OtrustCLI.logout cfg d).2 = some (.ok (Config.toJson { cfg with token := none })) := by
  intro cfg d
  by_cases h : cfg.token = none
  · refine ⟨⟨by simp [logout, h], by simp [logout, h], by simp [logout, h],
      fun _ => by simp [logout, h], fun t ht => ?_⟩, rfl, rfl⟩
    rw [h] at ht
    cases ht
  · exact ⟨⟨by simp [logout, h], by simp [logout, h], by simp [logout, h],
      fun hn => absurd hn h, fun t ht => by simp [logout, h, saveConfig]⟩, rfl, rfl⟩

/-- Witness for C9 at a concrete logged-in config. -/
theorem logout_clears_only_token_witness :
    (logout ⟨"s", some ⟨"a", "b"⟩, some "tok"⟩ none).2 =
      some (.ok (Config.toJson (logout ⟨"s", some ⟨"a", "b"⟩, some "tok"⟩ none).1)) :=
  ((logout_clears_only_token ⟨"s", some ⟨"a", "b"⟩, some "tok"⟩ none).1.2.2.2.2) "tok" rfl

/-- The confidence field of the CLI proof payload is exactly the proofData
confidence (a number, or null for NaN). -/
theorem proofPayloadJson_lookup_confidence (pd : CliProofData) (pk : String) (ts : ℕ) :
    (proofPayloadJson pd pk ts).lookup "confidence" =
      some (match pd.confidence with | some q => .num q | none => .null) := by
  rcases pd with ⟨ci, ac, re, co⟩
  rcases ci with _ | ci <;> rcases ac with _ | ac <;> rcases re with _ | re <;>
    rcases co with _ | co <;> rfl

/-- C10: in non-interactive proof:add, an absent confidence flag puts the
number 1 into the signed payload; a present flag value is parsed as a float
and placed in the payload with no range check, so values outside zero-to-one
are accepted and signed (concretely, the flag value 5 yields confidence 5 in
the payload although the interactive prompt validator rejects it); the
zero-to-one validation is exactly the interactive prompt's validate. -/
theorem nonInteractive_confidence_unchecked :
    (∀ (o : ProofOpts) (pk : String) (ts : ℕ), o.confidence = none →
      (proofPayloadJson (proofDataOfOpts o) pk ts).lookup "confidence" = some (.num 1)) ∧
    (∀ (o : ProofOpts) (pk : String) (ts : ℕ) (s : String) (q : ℚ),
      o.confidence = some s → s ≠ "" → jsParseFloat? s = some q →
      (proofPayloadJson (proofDataOfOpts o) pk ts).lookup "confidence" = some (.num q)) ∧
    (∀ (sign : String → String → String) (srv : String) (kp : KeyPair) (tok : String)
      (o : ProofOpts) (prompt : CliProofData → CliProofData) (ts : ℕ),
      interactiveTriggered o = false →
      proofAddAction sign ⟨srv, some kp, some tok⟩ o prompt ts =
        .ok ⟨"POST", "/api/proof",
          proofBodyCli (proofDataOfOpts o) kp.publicKey ts
            (sign (proofPayloadCli (proofDataOfOpts o) kp.publicKey ts) kp.privateKey)⟩) ∧
    jsParseFloat? "5" = some 5 ∧
    ¬ ((5 : ℚ) ≤ 1) ∧
    confidenceValidate "5" = false ∧
    (∀ (s : String) (q : ℚ), jsParseFloat? s = some q →
      (confidenceValidate s = true ↔ 0 ≤ q ∧ q ≤ 1)) := by
  refine ⟨?_, ?_, ?_, by decide, by decide, by decide, ?_⟩
  · intro o pk ts h
    rw [proofPayloadJson_lookup_confidence]
    simp [proofDataOfOpts, cliConfidence, h]
  · intro o pk ts s q hs hne hq
    rw [proofPayloadJson_lookup_confidence]
    simp [proofDataOfOpts, cliConfidence, hs, hne, hq]
  · intro sign srv kp tok o prompt ts h
    simp [proofAddAction, h, proofPayloadCli]
  · intro s q h
    simp [confidenceValidate, h, Bool.and_eq_true, decide_eq_true_iff]

/-- Witness for C10: the out-of-range flag value 5 is parsed and placed in
the payload unchanged in non-interactive mode. -/
theorem nonInteractive_confidence_unchecked_witness :
    (proofPayloadJson (proofDataOfOpts ⟨some "abc", some "confirmed", none, some "5", false⟩)
        "PK" 7).lookup "confidence" = some (.num 5) :=
  nonInteractive_confidence_unchecked.2.1 ⟨some "abc", some "confirmed", none, some "5", false⟩
    "PK" 7 "5" 5 rfl (by decide) (by decide)

end Otrust
